import Mathlib

/-!
Shallow embedding of the BPF simulator (`tools/bpf_sim.c`): the machine
state, the action decoder `end_action`, the fetch/dispatch loop of
`bpf_execute`, and the instruction-stream loading loop of `main`.
Machine integers are modelled as `Nat` with explicit reduction modulo
`2 ^ 32` where the C code performs unsigned 32-bit arithmetic.
-/

namespace BpfSim

/-- Linux errno value EINVAL, as used by the simulator's exit paths. -/
def EINVAL : Nat := 22

/-- Linux errno value EFAULT: the exit status of `exit_fault`. -/
def EFAULT : Nat := 14

/-- Linux errno value ENOEXEC: the exit status of `exit_error`. -/
def ENOEXEC : Nat := 8

/-- Linux errno value EDOM: undecodable return/action value. -/
def EDOM : Nat := 33

/-- Linux errno value ERANGE: out-of-range memory access or ip overrun. -/
def ERANGE : Nat := 34

/-- Linux errno value EOPNOTSUPP: unsupported opcode. -/
def EOPNOTSUPP : Nat := 95

/-- Linux errno value E2BIG: program exceeds the instruction buffer. -/
def E2BIG : Nat := 7

/-- Linux errno value ENOMEM: allocation failure. -/
def ENOMEM : Nat := 12

/-- Modelled from the spec: opcode class `BPF_LD` of the filtering bytecode;
the numeric encodings live in the header `tools/bpf.h`, which is not part of
the provided sources. The claims depend only on the encodings being the
distinct constants dispatched on by `bpf_execute`. -/
def BPF_LD : Nat := 0x00

/-- Modelled from the spec: size modifier `BPF_W` (see `BPF_LD`). -/
def BPF_W : Nat := 0x00

/-- Modelled from the spec: addressing mode `BPF_ABS` (see `BPF_LD`). -/
def BPF_ABS : Nat := 0x20

/-- Modelled from the spec: opcode class `BPF_JMP` (see `BPF_LD`). -/
def BPF_JMP : Nat := 0x05

/-- Modelled from the spec: jump kind `BPF_JA` (see `BPF_LD`). -/
def BPF_JA : Nat := 0x00

/-- Modelled from the spec: jump kind `BPF_JEQ` (see `BPF_LD`). -/
def BPF_JEQ : Nat := 0x10

/-- Modelled from the spec: jump kind `BPF_JGT` (see `BPF_LD`). -/
def BPF_JGT : Nat := 0x20

/-- Modelled from the spec: jump kind `BPF_JGE` (see `BPF_LD`). -/
def BPF_JGE : Nat := 0x30

/-- Modelled from the spec: opcode class `BPF_RET` (see `BPF_LD`). -/
def BPF_RET : Nat := 0x06

/-- Modelled from the spec: operand source `BPF_K` (see `BPF_LD`). -/
def BPF_K : Nat := 0x00

/-- Modelled from the spec: the scratch-memory size `BPF_SCRATCH_SIZE`
declared in the missing header `tools/bpf.h`; the spec says only
"fixed-size array", so the classic BPF scratch size is used. No claim
depends on the exact value. -/
def BPF_SCRATCH_SIZE : Nat := 16

/-- Modelled from the spec: `BPF_SYSCALL_MAX_32`, the maximum valid byte
offset into the syscall record under the 32-bit layout, declared in the
missing header `tools/bpf.h` (a 32-bit syscall number plus six 32-bit
arguments). No claim depends on the exact value. -/
def BPF_SYSCALL_MAX_32 : Nat := 28

/-- Modelled from the spec: `BPF_SYSCALL_MAX_64`, the maximum valid byte
offset into the syscall record under the 64-bit layout, declared in the
missing header `tools/bpf.h`. No claim depends on the exact value. -/
def BPF_SYSCALL_MAX_64 : Nat := 56

/-- `BPF_PRG_MAX_LEN` from `bpf_sim.c`: capacity of the instruction buffer. -/
def BPF_PRG_MAX_LEN : Nat := 4096

/-- The modulus of C `unsigned int` / `uint32_t` arithmetic. -/
def UINT_MOD : Nat := 2 ^ 32

/-- One fixed-width instruction record `struct bpf_instr`:
opcode (`uint16_t`), the two jump offsets (`uint8_t`), and the
immediate operand (`uint32_t`). Fields are `Nat`s; the C type bounds are
captured by `bpf_instr.wf`. -/
structure bpf_instr where
  op : Nat
  jt : Nat
  jf : Nat
  k : Nat
deriving DecidableEq, Repr

/-- The bounds imposed by the C field types of `struct bpf_instr`. -/
def bpf_instr.wf (i : bpf_instr) : Prop :=
  i.op < 2 ^ 16 ∧ i.jt < 2 ^ 8 ∧ i.jf < 2 ^ 8 ∧ i.k < 2 ^ 32

/-- Modelled from the spec: `sizeof(struct bpf_instr)` — the on-disk record
size of one instruction (16 + 8 + 8 + 32 bits); the struct lives in the
missing header `tools/bpf.h`. -/
def bpf_instr_size : Nat := 8

/-- `struct sim_state`: the accumulator register and the scratch array. -/
structure sim_state where
  acc : Nat
  temp : List Nat
deriving DecidableEq, Repr

/-- The machine state after `memset(&state, 0, sizeof(state))`. -/
def sim_state_init : sim_state :=
  { acc := 0, temp := List.replicate BPF_SCRATCH_SIZE 0 }

/-- The byte representation of the syscall record, as viewed through
`unsigned char *sys_data_b = (unsigned char *)sys_data`. -/
def isByteMem (mem : Nat → Nat) : Prop :=
  ∀ i, mem i < 256

/-- The closed decision vocabulary produced by the action decoder. -/
inductive Action where
  | KILL
  | TRAP
  | ERRNO (n : Nat)
  | ALLOW
deriving DecidableEq, Repr

/-- The observable outcome of one simulator run: `terminated` models
`end_action` printing a label and exiting 0, `errored` models
`exit_error rc line` (prints ERROR, exits ENOEXEC), `faulted` models
`exit_fault rc` (prints FAULT, exits EFAULT). -/
inductive Outcome where
  | terminated (a : Action)
  | errored (rc : Nat) (line : Nat)
  | faulted (rc : Nat)
deriving DecidableEq, Repr

/-- Whether the outcome is a decoded decision label (success tier). -/
def Outcome.isDecision : Outcome → Bool
  | .terminated _ => true
  | _ => false

/-- Whether the outcome is a program error (`exit_error` tier). -/
def Outcome.isError : Outcome → Bool
  | .errored _ _ => true
  | _ => false

/-- Whether the outcome is a simulator fault (`exit_fault` tier). -/
def Outcome.isFault : Outcome → Bool
  | .faulted _ => true
  | _ => false

/-- `end_action` from `bpf_sim.c`: decode a raw 32-bit action value into a
decision label, or report a domain error for any other value. -/
def end_action (action : Nat) (line : Nat) : Outcome :=
  if action = 0x00000000 then .terminated .KILL
  else if action = 0x00020000 then .terminated .TRAP
  else if action &&& 0xffff0000 = 0x00030000 then
    .terminated (.ERRNO (action &&& 0x0000ffff))
  else if action = 0x7fff0000 then .terminated .ALLOW
  else .errored EDOM line

/-- Result of dispatching one fetched instruction: either continue at a new
instruction pointer with a new machine state, or terminate the run. -/
inductive StepResult where
  | next (ip : Nat) (st : sim_state)
  | done (out : Outcome)
deriving DecidableEq, Repr

/-- The `switch (bpf->op)` body of `bpf_execute`, acting on one fetched
instruction. `ip` is the already-bumped instruction pointer (the C code
does `bpf = &prg->i[ip++]` before the switch) and `ip_c` is the index the
instruction was fetched from. All updates of `ip` are unsigned 32-bit. -/
def bpf_dispatch (opt_machine : Nat) (sys_data_b : Nat → Nat)
    (bpf : bpf_instr) (ip : Nat) (ip_c : Nat) (state : sim_state) :
    StepResult :=
  if bpf.op = BPF_LD + BPF_W + BPF_ABS then
    if opt_machine = 32 ∧ bpf.k < BPF_SYSCALL_MAX_32 then
      .next ip { state with acc := sys_data_b bpf.k }
    else if opt_machine = 64 ∧ bpf.k < BPF_SYSCALL_MAX_64 then
      .next ip { state with acc := sys_data_b bpf.k }
    else
      .done (.errored ERANGE ip_c)
  else if bpf.op = BPF_JMP + BPF_JA then
    .next ((ip + bpf.k) % UINT_MOD) state
  else if bpf.op = BPF_JMP + BPF_JEQ + BPF_K then
    if bpf.k = state.acc then .next ((ip + bpf.jt) % UINT_MOD) state
    else .next ((ip + bpf.jf) % UINT_MOD) state
  else if bpf.op = BPF_JMP + BPF_JGT + BPF_K then
    if bpf.k > state.acc then .next ((ip + bpf.jt) % UINT_MOD) state
    else .next ((ip + bpf.jf) % UINT_MOD) state
  else if bpf.op = BPF_JMP + BPF_JGE + BPF_K then
    if bpf.k ≥ state.acc then .next ((ip + bpf.jt) % UINT_MOD) state
    else .next ((ip + bpf.jf) % UINT_MOD) state
  else if bpf.op = BPF_RET + BPF_K then
    .done (end_action bpf.k ip_c)
  else
    .done (.faulted EOPNOTSUPP)

/-- The `while (ip < prg->i_cnt)` loop of `bpf_execute`, with explicit fuel
(the C loop is not structurally terminating: a wrapping unconditional jump
loops forever, and `none` models that the given number of iterations did
not finish). `ip_c` carries the index of the most recently fetched
instruction, which the post-loop `exit_error(ERANGE, ip_c)` reports. -/
def bpf_execute_fuel (opt_machine : Nat) (prg : List bpf_instr)
    (sys_data_b : Nat → Nat) :
    Nat → Nat → Nat → sim_state → Option Outcome
  | 0, _, _, _ => none
  | fuel + 1, ip, ip_c, state =>
    if h : ip < prg.length then
      match bpf_dispatch opt_machine sys_data_b (prg.get ⟨ip, h⟩)
          ((ip + 1) % UINT_MOD) ip state with
      | .next ip2 st2 => bpf_execute_fuel opt_machine prg sys_data_b fuel ip2 ip st2
      | .done out => some out
    else
      some (.errored ERANGE ip_c)

/-- `bpf_execute` from `bpf_sim.c`: run the program from instruction 0 on a
zeroed machine state, with the given iteration budget. -/
def bpf_execute (opt_machine : Nat) (prg : List bpf_instr)
    (sys_data_b : Nat → Nat) (fuel : Nat) : Option Outcome :=
  bpf_execute_fuel opt_machine prg sys_data_b fuel 0 0 sim_state_init

/-- The run terminates: some finite iteration budget suffices. -/
def bpf_terminates (opt_machine : Nat) (prg : List bpf_instr)
    (sys_data_b : Nat → Nat) : Prop :=
  ∃ fuel, (bpf_execute opt_machine prg sys_data_b fuel).isSome = true

/-- Result of the instruction-stream loading loop in `main`. -/
inductive LoadResult where
  | ok (i_cnt : Nat)
  | fault (rc : Nat)
  | spin
deriving DecidableEq, Repr

/-- The `do { read ... } while (fd_read_len > 0)` loading loop of `main`,
on an idealized stream of `rem` remaining bytes: each `read` returns
`min bpf_instr_size rem` bytes, the count is bumped only on a full record,
and the loop faults with E2BIG as soon as the count reaches
`BPF_PRG_MAX_LEN`. The fuel is a modelling artifact (`spin` is returned on
exhaustion and is never reached from `bpf_load`). -/
def bpf_load_loop : Nat → Nat → Nat → LoadResult
  | 0, _, _ => .spin
  | fuel + 1, rem, i_cnt =>
    let fd_read_len := min bpf_instr_size rem
    let i_cnt2 := if fd_read_len = bpf_instr_size then i_cnt + 1 else i_cnt
    if i_cnt2 = BPF_PRG_MAX_LEN then .fault E2BIG
    else if 0 < fd_read_len then bpf_load_loop fuel (rem - fd_read_len) i_cnt2
    else .ok i_cnt2

/-- Load a stream of `len` bytes, starting from an empty program, with
always-sufficient fuel. -/
def bpf_load (len : Nat) : LoadResult :=
  bpf_load_loop (len + 2) len 0

/-- The all-zero syscall-record byte memory used by concrete instances. -/
theorem byteMem_zero : isByteMem (fun _ => 0) := by
  intro i
  norm_num

/-- Masking with 0xffff extracts the low 16 bits. -/
theorem land_low_mask (a : Nat) : a &&& 0xffff = a % 2 ^ 16 := by
  have h := Nat.and_pow_two_sub_one_eq_mod a 16
  norm_num at h ⊢
  exact h

/-- Masking a 32-bit value with 0xffff0000 keeps exactly its high 16 bits. -/
theorem land_high_mask (a : Nat) (ha : a < 2 ^ 32) :
    a &&& 0xffff0000 = a / 2 ^ 16 * 2 ^ 16 := by
  have hmask : (0xffff0000 : Nat) = (2 ^ 16 - 1) <<< 16 := by
    norm_num [Nat.shiftLeft_eq]
  have hrhs : a / 2 ^ 16 * 2 ^ 16 = (a >>> 16) <<< 16 := by
    rw [Nat.shiftLeft_eq, Nat.shiftRight_eq_div_pow]
  rw [hmask, hrhs]
  apply Nat.eq_of_testBit_eq
  intro j
  rw [Nat.testBit_land, Nat.testBit_shiftLeft, Nat.testBit_shiftLeft,
    Nat.testBit_two_pow_sub_one, Nat.testBit_shiftRight]
  rcases Nat.lt_or_ge j 16 with hj | hj
  · simp [Nat.not_le.mpr hj]
  · rcases Nat.lt_or_ge j 32 with hj2 | hj2
    · have : 16 + (j - 16) = j := by omega
      simp [hj, this, (show j - 16 < 16 by omega)]
    · have h1 : Nat.testBit a j = false :=
        Nat.testBit_lt_two_pow (by
          calc a < 2 ^ 32 := ha
            _ ≤ 2 ^ j := Nat.pow_le_pow_right (by omega) hj2)
      have h2 : Nat.testBit a (16 + (j - 16)) = false :=
        Nat.testBit_lt_two_pow (by
          calc a < 2 ^ 32 := ha
            _ ≤ 2 ^ (16 + (j - 16)) :=
              Nat.pow_le_pow_right (by omega) (by omega))
      simp [h1, h2, (show ¬ j - 16 < 16 by omega)]

/-- Claim C1: the action decoder is a pure function on 32-bit values mapping
exactly 0x00000000 to KILL, exactly 0x00020000 to TRAP, every value whose
high 16 bits equal 0x0003 to ERRNO of the low 16 bits, exactly 0x7fff0000
to ALLOW, and every other value to a domain error (the ERROR tier), never
to a label (the mask conditions from the source coincide with the
high-16-bits and low-16-bits readings, per the last two conjuncts). -/
theorem C1_action_decoder (a line : Nat) :
    end_action 0x00000000 line = .terminated .KILL ∧
    end_action 0x00020000 line = .terminated .TRAP ∧
    (a &&& 0xffff0000 = 0x00030000 →
      end_action a line = .terminated (.ERRNO (a &&& 0x0000ffff))) ∧
    end_action 0x7fff0000 line = .terminated .ALLOW ∧
    (a ≠ 0x00000000 → a ≠ 0x00020000 → a &&& 0xffff0000 ≠ 0x00030000 →
      a ≠ 0x7fff0000 →
      end_action a line = .errored EDOM line ∧
      (end_action a line).isDecision = false) ∧
    a &&& 0x0000ffff = a % 2 ^ 16 ∧
    (a < 2 ^ 32 → (a &&& 0xffff0000 = 0x00030000 ↔ a / 2 ^ 16 = 3)) := by
  refine ⟨rfl, rfl, ?_, ?_, ?_, land_low_mask a, ?_⟩
  · intro h
    have h1 : a ≠ 0x00000000 := by
      rintro rfl
      exact absurd h (by decide)
    have h2 : a ≠ 0x00020000 := by
      rintro rfl
      exact absurd h (by decide)
    unfold end_action
    rw [if_neg h1, if_neg h2, if_pos h]
  · unfold end_action
    rw [if_neg (by decide), if_neg (by decide), if_neg (by decide),
      if_pos rfl]
  · intro h1 h2 h3 h4
    unfold end_action
    rw [if_neg h1, if_neg h2, if_neg h3, if_neg h4]
    exact ⟨rfl, rfl⟩
  · intro ha
    rw [land_high_mask a ha]
    constructor
    · intro h
      omega
    · intro h
      rw [h]
      norm_num

/-- Witness for C1 at the concrete values 0x0003002a and 0x12345678. -/
theorem C1_action_decoder_witness :
    end_action 0x0003002a 0 = .terminated (.ERRNO (0x0003002a &&& 0x0000ffff)) ∧
    end_action 0x12345678 9 = .errored EDOM 9 :=
  ⟨(C1_action_decoder 0x0003002a 0).2.2.1 (by decide),
   ((C1_action_decoder 0x12345678 9).2.2.2.2.1 (by decide) (by decide)
     (by decide) (by decide)).1⟩

/-- Claim C2: a LOAD-ABS(k) instruction under the selected width loads the
byte at offset k of the syscall record into the accumulator and continues
when k is strictly below the width's maximum valid offset, and otherwise
results in the ERROR range outcome without reading any memory (the result
is the same for every byte memory). -/
theorem C2_load_abs (opt_machine : Nat)
    (hm : opt_machine = 32 ∨ opt_machine = 64)
    (sys_data_b : Nat → Nat) (bpf : bpf_instr) (ip ip_c : Nat)
    (st : sim_state) (hop : bpf.op = BPF_LD + BPF_W + BPF_ABS) :
    (bpf.k < (if opt_machine = 32 then BPF_SYSCALL_MAX_32
        else BPF_SYSCALL_MAX_64) →
      bpf_dispatch opt_machine sys_data_b bpf ip ip_c st =
        .next ip { st with acc := sys_data_b bpf.k }) ∧
    ((if opt_machine = 32 then BPF_SYSCALL_MAX_32 else BPF_SYSCALL_MAX_64) ≤
        bpf.k →
      ∀ mem2 : Nat → Nat,
        bpf_dispatch opt_machine mem2 bpf ip ip_c st =
          .done (.errored ERANGE ip_c)) := by
  have h3264 : ¬((64 : Nat) = 32) := by decide
  rcases hm with rfl | rfl
  · constructor
    · intro hk
      rw [if_pos rfl] at hk
      unfold bpf_dispatch
      rw [if_pos hop, if_pos ⟨rfl, hk⟩]
    · intro hk mem2
      rw [if_pos rfl] at hk
      unfold bpf_dispatch
      rw [if_pos hop, if_neg (by omega), if_neg (by simp)]
  · constructor
    · intro hk
      rw [if_neg h3264] at hk
      unfold bpf_dispatch
      rw [if_pos hop, if_neg (by simp), if_pos ⟨rfl, hk⟩]
    · intro hk mem2
      rw [if_neg h3264] at hk
      unfold bpf_dispatch
      rw [if_pos hop, if_neg (by simp), if_neg (by omega)]

/-- Witness for C2: a 32-bit load at offset 3 stores the byte, and one at
the 32-bit maximum offset is a range error under every byte memory. -/
theorem C2_load_abs_witness :
    bpf_dispatch 32 (fun i => i + 40) ⟨BPF_LD + BPF_W + BPF_ABS, 0, 0, 3⟩
      1 0 sim_state_init =
      .next 1 { sim_state_init with acc := (fun i => i + 40) 3 } ∧
    bpf_dispatch 32 (fun _ => 0) ⟨BPF_LD + BPF_W + BPF_ABS, 0, 0, 28⟩
      2 1 sim_state_init = .done (.errored ERANGE 1) :=
  ⟨(C2_load_abs 32 (Or.inl rfl) (fun i => i + 40)
      ⟨BPF_LD + BPF_W + BPF_ABS, 0, 0, 3⟩ 1 0 sim_state_init rfl).1
      (by decide),
   (C2_load_abs 32 (Or.inl rfl) (fun _ => 0)
      ⟨BPF_LD + BPF_W + BPF_ABS, 0, 0, 28⟩ 2 1 sim_state_init rfl).2
      (by decide) (fun _ => 0)⟩

/-- Claim C3: a JUMP-GT-K(k,jt,jf) instruction advances the instruction
pointer by jt exactly when the immediate k is strictly greater than the
accumulator, and by jf otherwise (so equality takes jf, and k = 10 with
accumulator 5 takes jt). -/
theorem C3_jump_gt (opt_machine : Nat) (sys_data_b : Nat → Nat)
    (bpf : bpf_instr) (ip ip_c : Nat) (st : sim_state)
    (hop : bpf.op = BPF_JMP + BPF_JGT + BPF_K) :
    bpf_dispatch opt_machine sys_data_b bpf ip ip_c st =
      .next ((ip + (if bpf.k > st.acc then bpf.jt else bpf.jf)) % UINT_MOD)
        st := by
  unfold bpf_dispatch
  rw [if_neg (by rw [hop]; decide), if_neg (by rw [hop]; decide),
    if_neg (by rw [hop]; decide), if_pos hop]
  split <;> rfl

/-- Witness for C3: with accumulator 5, k = 10 takes the jt branch and
k = 5 takes the jf branch. -/
theorem C3_jump_gt_witness :
    bpf_dispatch 32 (fun _ => 0) ⟨BPF_JMP + BPF_JGT + BPF_K, 7, 9, 10⟩ 1 0
      { acc := 5, temp := [] } = .next 8 { acc := 5, temp := [] } ∧
    bpf_dispatch 32 (fun _ => 0) ⟨BPF_JMP + BPF_JGT + BPF_K, 7, 9, 5⟩ 1 0
      { acc := 5, temp := [] } = .next 10 { acc := 5, temp := [] } :=
  ⟨(C3_jump_gt 32 (fun _ => 0) ⟨BPF_JMP + BPF_JGT + BPF_K, 7, 9, 10⟩ 1 0
      { acc := 5, temp := [] } rfl).trans (by decide),
   (C3_jump_gt 32 (fun _ => 0) ⟨BPF_JMP + BPF_JGT + BPF_K, 7, 9, 5⟩ 1 0
      { acc := 5, temp := [] } rfl).trans (by decide)⟩

/-- Claim C4: whenever the instruction pointer reaches or exceeds the
program length with execution still running, the run ends with the ERROR
range outcome — never a silent success and never a decision label. -/
theorem C4_ip_overrun (opt_machine : Nat) (prg : List bpf_instr)
    (sys_data_b : Nat → Nat) (fuel ip ip_c : Nat) (st : sim_state)
    (h : prg.length ≤ ip) :
    bpf_execute_fuel opt_machine prg sys_data_b (fuel + 1) ip ip_c st =
      some (.errored ERANGE ip_c) ∧
    (Outcome.errored ERANGE ip_c).isDecision = false := by
  refine ⟨?_, rfl⟩
  rw [bpf_execute_fuel]
  rw [dif_neg (Nat.not_lt.mpr h)]

/-- Witness for C4: the empty program immediately yields the ERROR range
outcome. -/
theorem C4_ip_overrun_witness :
    bpf_execute_fuel 32 [] (fun _ => 0) 1 0 0 sim_state_init =
      some (.errored ERANGE 0) ∧
    (Outcome.errored ERANGE 0).isDecision = false :=
  C4_ip_overrun 32 [] (fun _ => 0) 0 0 0 sim_state_init (by decide)

/-- A one-instruction program whose unconditional jump lands past the end
of the program. -/
def overrun_prog : List bpf_instr := [⟨BPF_JMP + BPF_JA, 0, 0, 5⟩]

/-- Counterexample to claim C5: an instruction-pointer overrun (a jump past
the final instruction) makes the process report the ERROR tier, not the
FAULT tier the claim names: the run ends in `exit_error(ERANGE, ...)`,
whose outcome is not a fault. -/
theorem C5_counterexample :
    bpf_execute 32 overrun_prog (fun _ => 0) 2 =
      some (.errored ERANGE 0) ∧
    (Outcome.errored ERANGE 0).isFault = false := by
  constructor <;> decide

/-- Claim C5 as amended: when the instruction pointer passes beyond the end
of the program, the process reports the ERROR tier (prints ERROR and exits
with the fixed error status), not the FAULT tier. -/
theorem C5_overrun_tier (opt_machine : Nat) (prg : List bpf_instr)
    (sys_data_b : Nat → Nat) (fuel ip ip_c : Nat) (st : sim_state)
    (h : prg.length ≤ ip) :
    ∃ out, bpf_execute_fuel opt_machine prg sys_data_b (fuel + 1) ip ip_c st =
        some out ∧ out.isError = true ∧ out.isFault = false := by
  refine ⟨.errored ERANGE ip_c, ?_, rfl, rfl⟩
  rw [bpf_execute_fuel]
  rw [dif_neg (Nat.not_lt.mpr h)]

/-- Witness for the amended C5 at a concrete overrun point. -/
theorem C5_overrun_tier_witness :
    ∃ out, bpf_execute_fuel 32 [] (fun _ => 0) 1 0 3 sim_state_init =
        some out ∧ out.isError = true ∧ out.isFault = false :=
  C5_overrun_tier 32 [] (fun _ => 0) 0 0 3 sim_state_init (by decide)

/-- Closed form of the loading loop on a stream of `q` complete records
plus `p` trailing bytes, while the running count stays within capacity:
the loop counts the complete records, drops the trailing bytes, and faults
with E2BIG exactly when the count reaches `BPF_PRG_MAX_LEN`. -/
theorem bpf_load_loop_eq (q : Nat) :
    ∀ fuel p i_cnt, p < bpf_instr_size →
      i_cnt + q ≤ BPF_PRG_MAX_LEN → q + 2 ≤ fuel →
      bpf_load_loop fuel (bpf_instr_size * q + p) i_cnt =
        if i_cnt + q = BPF_PRG_MAX_LEN then .fault E2BIG
        else .ok (i_cnt + q) := by
  have hsz : 0 < bpf_instr_size := by unfold bpf_instr_size; omega
  induction q with
  | zero =>
    intro fuel p i_cnt hp hle hf
    obtain ⟨f, rfl⟩ : ∃ f, fuel = f + 2 := ⟨fuel - 2, by omega⟩
    have hmin : min bpf_instr_size p = p :=
      Nat.min_eq_right (Nat.le_of_lt hp)
    have hbump : (if p = bpf_instr_size then i_cnt + 1 else i_cnt) = i_cnt :=
      if_neg (by omega)
    rw [show f + 2 = (f + 1) + 1 from rfl, bpf_load_loop]
    simp only [Nat.mul_zero, Nat.zero_add, Nat.add_zero, hmin, hbump]
    by_cases hc : i_cnt = BPF_PRG_MAX_LEN
    · rw [if_pos hc, if_pos hc]
    · rw [if_neg hc, if_neg hc]
      by_cases hp0 : 0 < p
      · have hbump0 : (if (0 : Nat) = bpf_instr_size then i_cnt + 1
            else i_cnt) = i_cnt := if_neg (by omega)
        rw [if_pos hp0, Nat.sub_self, bpf_load_loop]
        simp only [Nat.min_zero, hbump0]
        rw [if_neg hc, if_neg (by omega)]
      · rw [if_neg hp0]
  | succ q ih =>
    intro fuel p i_cnt hp hle hf
    obtain ⟨f, rfl⟩ : ∃ f, fuel = f + 1 := ⟨fuel - 1, by omega⟩
    have hrem : bpf_instr_size * (q + 1) + p =
        bpf_instr_size * q + p + bpf_instr_size := by ring
    have hmin : min bpf_instr_size (bpf_instr_size * q + p + bpf_instr_size) =
        bpf_instr_size := Nat.min_eq_left (by omega)
    rw [bpf_load_loop, hrem]
    simp only [hmin, eq_self_iff_true, if_true]
    by_cases hc : i_cnt + 1 = BPF_PRG_MAX_LEN
    · rw [if_pos hc, if_pos (by omega)]
    · rw [if_neg hc, if_pos hsz, Nat.add_sub_cancel,
        ih f p (i_cnt + 1) hp (by omega) (by omega)]
      by_cases hd : i_cnt + 1 + q = BPF_PRG_MAX_LEN
      · rw [if_pos hd, if_pos (by omega)]
      · rw [if_neg hd, if_neg (by omega)]
        rw [show i_cnt + 1 + q = i_cnt + (q + 1) from by omega]

/-- On a stream holding at least enough complete records to fill the
buffer, the loading loop always faults with E2BIG. -/
theorem bpf_load_loop_overflow (q : Nat) :
    ∀ fuel p i_cnt, p < bpf_instr_size → i_cnt < BPF_PRG_MAX_LEN →
      BPF_PRG_MAX_LEN ≤ i_cnt + q → q + 2 ≤ fuel →
      bpf_load_loop fuel (bpf_instr_size * q + p) i_cnt = .fault E2BIG := by
  have hsz : 0 < bpf_instr_size := by unfold bpf_instr_size; omega
  induction q with
  | zero =>
    intro fuel p i_cnt hp hlt hge hf
    omega
  | succ q ih =>
    intro fuel p i_cnt hp hlt hge hf
    obtain ⟨f, rfl⟩ : ∃ f, fuel = f + 1 := ⟨fuel - 1, by omega⟩
    have hrem : bpf_instr_size * (q + 1) + p =
        bpf_instr_size * q + p + bpf_instr_size := by ring
    have hmin : min bpf_instr_size (bpf_instr_size * q + p + bpf_instr_size) =
        bpf_instr_size := Nat.min_eq_left (by omega)
    rw [bpf_load_loop, hrem]
    simp only [hmin, eq_self_iff_true, if_true]
    by_cases hc : i_cnt + 1 = BPF_PRG_MAX_LEN
    · rw [if_pos hc]
    · rw [if_neg hc, if_pos hsz, Nat.add_sub_cancel]
      exact ih f p (i_cnt + 1) hp (by omega) (by omega) (by omega)

/-- Counterexample to claim C6: a stream of exactly 4096 complete records
(no 4097th record present) does not load successfully with count 4096 —
the loader already faults with E2BIG when the count reaches 4096. -/
theorem C6_counterexample :
    bpf_load (bpf_instr_size * BPF_PRG_MAX_LEN) = .fault E2BIG ∧
    bpf_load (bpf_instr_size * BPF_PRG_MAX_LEN) ≠ .ok BPF_PRG_MAX_LEN := by
  have h : bpf_load (bpf_instr_size * BPF_PRG_MAX_LEN) = .fault E2BIG := by
    unfold bpf_load
    rw [show bpf_instr_size * BPF_PRG_MAX_LEN =
        bpf_instr_size * BPF_PRG_MAX_LEN + 0 from rfl]
    exact bpf_load_loop_overflow BPF_PRG_MAX_LEN
      (bpf_instr_size * BPF_PRG_MAX_LEN + 0 + 2) 0 0
      (by unfold bpf_instr_size; omega)
      (by unfold BPF_PRG_MAX_LEN; omega) (by omega)
      (by unfold bpf_instr_size BPF_PRG_MAX_LEN; omega)
  exact ⟨h, by rw [h]; simp⟩

/-- Claim C6 as amended: the loader reads fixed-size records until
end-of-stream; a stream of up to 4095 complete records loads successfully
with that count, and loading fails with the E2BIG resource-exhaustion
fault exactly when at least 4096 complete records are present (the check
fires as soon as the count reaches the 4096-entry capacity). -/
theorem C6_loader_capacity (q p : Nat) (hp : p < bpf_instr_size) :
    (q < BPF_PRG_MAX_LEN →
      bpf_load (bpf_instr_size * q + p) = .ok q) ∧
    (BPF_PRG_MAX_LEN ≤ q →
      bpf_load (bpf_instr_size * q + p) = .fault E2BIG) := by
  constructor
  · intro hq
    unfold bpf_load
    rw [bpf_load_loop_eq q (bpf_instr_size * q + p + 2) p 0 hp (by omega)
      (by unfold bpf_instr_size at *; omega)]
    rw [Nat.zero_add, if_neg (by omega)]
  · intro hq
    unfold bpf_load
    exact bpf_load_loop_overflow q (bpf_instr_size * q + p + 2) p 0 hp
      (by unfold BPF_PRG_MAX_LEN; omega) (by omega)
      (by unfold bpf_instr_size at *; omega)

/-- Witness for the amended C6: one complete record loads with count 1,
and 4096 complete records fault with E2BIG. -/
theorem C6_loader_capacity_witness :
    bpf_load (bpf_instr_size * 1 + 0) = .ok 1 ∧
    bpf_load (bpf_instr_size * 4096 + 0) = .fault E2BIG :=
  ⟨(C6_loader_capacity 1 0 (by decide)).1 (by decide),
   (C6_loader_capacity 4096 0 (by decide)).2 (by decide)⟩

/-- Counterexample to claim C7: a stream of 4096 complete records plus a
3-byte trailing fragment loads nothing at all — the loader faults with
E2BIG — so the number of instructions loaded is not the total byte length
divided by the record size. -/
theorem C7_counterexample :
    bpf_load (bpf_instr_size * BPF_PRG_MAX_LEN + 3) ≠
      .ok ((bpf_instr_size * BPF_PRG_MAX_LEN + 3) / bpf_instr_size) := by
  have h : bpf_load (bpf_instr_size * BPF_PRG_MAX_LEN + 3) = .fault E2BIG := by
    unfold bpf_load
    exact bpf_load_loop_overflow BPF_PRG_MAX_LEN
      (bpf_instr_size * BPF_PRG_MAX_LEN + 3 + 2) 3 0
      (by unfold bpf_instr_size; omega)
      (by unfold BPF_PRG_MAX_LEN; omega) (by omega)
      (by unfold bpf_instr_size BPF_PRG_MAX_LEN; omega)
  rw [h]
  simp

/-- Claim C7 as amended: for every input byte stream containing fewer than
4096 complete records, the number of instructions loaded equals the total
byte length divided by the record size; a trailing fragment shorter than
one record is dropped without being counted and without any error or
fault. -/
theorem C7_record_division (n : Nat)
    (h : n / bpf_instr_size < BPF_PRG_MAX_LEN) :
    bpf_load n = .ok (n / bpf_instr_size) := by
  unfold bpf_load
  have hn : bpf_instr_size * (n / bpf_instr_size) + n % bpf_instr_size = n :=
    Nat.div_add_mod n bpf_instr_size
  have hq : n / bpf_instr_size ≤ n := Nat.div_le_self n bpf_instr_size
  conv_lhs => rw [← hn]
  rw [bpf_load_loop_eq (n / bpf_instr_size)
    (bpf_instr_size * (n / bpf_instr_size) + n % bpf_instr_size + 2)
    (n % bpf_instr_size) 0
    (Nat.mod_lt n (by unfold bpf_instr_size; omega)) (by omega) (by omega)]
  rw [Nat.zero_add, if_neg (by omega)]

/-- Witness for the amended C7: an 11-byte stream loads one record, the
3 trailing bytes being dropped. -/
theorem C7_record_division_witness :
    bpf_load 11 = .ok (11 / bpf_instr_size) :=
  C7_record_division 11 (by decide)

/-- A one-instruction program whose unconditional jump has a non-zero
offset that wraps the 32-bit instruction pointer back onto the jump
itself: `ip` becomes `(ip + 1 + (2^32 - 1)) mod 2^32 = ip`. -/
def loop_prog : List bpf_instr := [⟨BPF_JMP + BPF_JA, 0, 0, 2 ^ 32 - 1⟩]

/-- Running `loop_prog` never finishes, whatever the iteration budget. -/
theorem loop_prog_run_none (fuel : Nat) :
    bpf_execute 32 loop_prog (fun _ => 0) fuel = none := by
  unfold bpf_execute
  induction fuel with
  | zero => rfl
  | succ f ih =>
    rw [bpf_execute_fuel, dif_pos (by decide : (0 : Nat) < loop_prog.length)]
    have hd : bpf_dispatch 32 (fun _ => 0)
        (loop_prog.get ⟨0, by decide⟩) ((0 + 1) % UINT_MOD) 0 sim_state_init =
        .next 0 sim_state_init := by decide
    rw [hd]
    exact ih

/-- Counterexample to claim C8: `loop_prog` contains no JUMP-ALWAYS with
offset k = 0, yet its execution never terminates — the unsigned 32-bit
pointer addition `ip += k` wraps, so a zero offset is not the only way to
build a non-terminating sequence (and a zero offset itself merely falls
through, because the pointer was already advanced at fetch time). -/
theorem C8_counterexample :
    (loop_prog.all fun i =>
      !(i.op == BPF_JMP + BPF_JA && i.k == 0)) = true ∧
    ¬ bpf_terminates 32 loop_prog (fun _ => 0) := by
  refine ⟨by decide, ?_⟩
  rintro ⟨fuel, hf⟩
  rw [loop_prog_run_none fuel] at hf
  exact absurd hf (by decide)

/-- If dispatching an in-bounds fetched instruction continues execution,
the new instruction pointer is strictly past the fetch index, provided the
program is within capacity, the jump offsets fit their C types, and no
unconditional jump can wrap the 32-bit pointer arithmetic. -/
theorem bpf_dispatch_next_ge (opt_machine : Nat) (sys_data_b : Nat → Nat)
    (prg_len : Nat) (bpf : bpf_instr) (ip : Nat) (st : sim_state)
    (hlen : prg_len ≤ BPF_PRG_MAX_LEN) (hip : ip < prg_len)
    (hjt : bpf.jt < 2 ^ 8) (hjf : bpf.jf < 2 ^ 8)
    (hja : bpf.op = BPF_JMP + BPF_JA → bpf.k + prg_len < UINT_MOD) :
    ∀ ip2 st2,
      bpf_dispatch opt_machine sys_data_b bpf ((ip + 1) % UINT_MOD) ip st =
        .next ip2 st2 →
      ip + 1 ≤ ip2 := by
  intro ip2 st2 h
  have hcap : BPF_PRG_MAX_LEN + 2 ^ 8 < UINT_MOD := by
    unfold BPF_PRG_MAX_LEN UINT_MOD
    norm_num
  have hmod : (ip + 1) % UINT_MOD = ip + 1 :=
    Nat.mod_eq_of_lt (by omega)
  rw [hmod] at h
  unfold bpf_dispatch at h
  by_cases c1 : bpf.op = BPF_LD + BPF_W + BPF_ABS
  · rw [if_pos c1] at h
    split_ifs at h <;> cases h <;> omega
  rw [if_neg c1] at h
  by_cases c2 : bpf.op = BPF_JMP + BPF_JA
  · rw [if_pos c2] at h
    cases h
    have hk : bpf.k + prg_len < UINT_MOD := hja c2
    rw [Nat.mod_eq_of_lt (by omega)]
    omega
  rw [if_neg c2] at h
  by_cases c3 : bpf.op = BPF_JMP + BPF_JEQ + BPF_K
  · rw [if_pos c3] at h
    split_ifs at h <;> cases h <;>
      (rw [Nat.mod_eq_of_lt (by omega)]; omega)
  rw [if_neg c3] at h
  by_cases c4 : bpf.op = BPF_JMP + BPF_JGT + BPF_K
  · rw [if_pos c4] at h
    split_ifs at h <;> cases h <;>
      (rw [Nat.mod_eq_of_lt (by omega)]; omega)
  rw [if_neg c4] at h
  by_cases c5 : bpf.op = BPF_JMP + BPF_JGE + BPF_K
  · rw [if_pos c5] at h
    split_ifs at h <;> cases h <;>
      (rw [Nat.mod_eq_of_lt (by omega)]; omega)
  rw [if_neg c5] at h
  by_cases c6 : bpf.op = BPF_RET + BPF_K
  · rw [if_pos c6] at h
    cases h
  · rw [if_neg c6] at h
    cases h

/-- With enough fuel, a run over a capacity-bounded program whose jump
offsets fit their C types and whose unconditional jumps cannot wrap the
32-bit pointer always produces an outcome: the instruction pointer
strictly increases at every continuing step. -/
theorem bpf_execute_fuel_isSome (opt_machine : Nat) (prg : List bpf_instr)
    (sys_data_b : Nat → Nat)
    (hlen : prg.length ≤ BPF_PRG_MAX_LEN)
    (hwf : ∀ i ∈ prg, i.jt < 2 ^ 8 ∧ i.jf < 2 ^ 8)
    (hja : ∀ i ∈ prg, i.op = BPF_JMP + BPF_JA →
      i.k + prg.length < UINT_MOD) :
    ∀ fuel ip ip_c st,
      prg.length + 1 ≤ min ip prg.length + fuel →
      (bpf_execute_fuel opt_machine prg sys_data_b fuel ip ip_c st).isSome =
        true := by
  intro fuel
  induction fuel with
  | zero =>
    intro ip ip_c st h
    exfalso
    have := Nat.min_le_right ip prg.length
    omega
  | succ f ih =>
    intro ip ip_c st h
    rw [bpf_execute_fuel]
    by_cases hip : ip < prg.length
    · rw [dif_pos hip]
      have hmem : prg.get ⟨ip, hip⟩ ∈ prg := List.get_mem prg ip hip
      cases hd : bpf_dispatch opt_machine sys_data_b (prg.get ⟨ip, hip⟩)
          ((ip + 1) % UINT_MOD) ip st with
      | done out => rfl
      | next ip2 st2 =>
        have hge : ip + 1 ≤ ip2 :=
          bpf_dispatch_next_ge opt_machine sys_data_b prg.length
            (prg.get ⟨ip, hip⟩) ip st hlen hip
            (hwf _ hmem).1 (hwf _ hmem).2 (hja _ hmem) ip2 st2 hd
        apply ih
        have hmin1 : min ip prg.length = ip := Nat.min_eq_left (by omega)
        rcases Nat.lt_or_ge ip2 prg.length with h2 | h2
        · have : min ip2 prg.length = ip2 := Nat.min_eq_left (by omega)
          omega
        · have : min ip2 prg.length = prg.length :=
            Nat.min_eq_right (by omega)
          omega
    · rw [dif_neg hip]
      rfl

/-- Claim C8 as amended: a program within the 4096-instruction capacity,
with well-typed jump offsets, terminates for every syscall record provided
no JUMP-ALWAYS offset can wrap the unsigned 32-bit instruction pointer
(k + program length < 2^32); the wrapping unconditional jump — not the
zero-offset one, which merely falls through — is the only way to build a
non-terminating instruction sequence. -/
theorem C8_termination (opt_machine : Nat) (prg : List bpf_instr)
    (sys_data_b : Nat → Nat)
    (hlen : prg.length ≤ BPF_PRG_MAX_LEN)
    (hwf : ∀ i ∈ prg, i.jt < 2 ^ 8 ∧ i.jf < 2 ^ 8)
    (hja : ∀ i ∈ prg, i.op = BPF_JMP + BPF_JA →
      i.k + prg.length < UINT_MOD) :
    bpf_terminates opt_machine prg sys_data_b :=
  ⟨prg.length + 1,
    bpf_execute_fuel_isSome opt_machine prg sys_data_b hlen hwf hja
      (prg.length + 1) 0 0 sim_state_init
      (by have := Nat.min_le_left 0 prg.length; omega)⟩

/-- Witness for the amended C8: a single RETURN-K program terminates. -/
theorem C8_termination_witness :
    bpf_terminates 32 [⟨BPF_RET + BPF_K, 0, 0, 0⟩] (fun _ => 0) :=
  C8_termination 32 [⟨BPF_RET + BPF_K, 0, 0, 0⟩] (fun _ => 0)
    (by decide) (by decide) (by decide)

/-- Claim C9: the accumulator always holds at most 255 — it starts at zero
and the only instruction writing it, LOAD-ABS, stores one byte of the
syscall record — so every JUMP-EQ-K, JUMP-GT-K or JUMP-GE-K with immediate
k > 255 takes a branch fixed independently of the program's loads. -/
theorem C9_acc_invariant (opt_machine : Nat) (sys_data_b : Nat → Nat)
    (hmem : isByteMem sys_data_b) (st : sim_state) (hacc : st.acc < 256) :
    sim_state_init.acc = 0 ∧
    (∀ bpf ip ip_c ip2 st2,
      bpf_dispatch opt_machine sys_data_b bpf ip ip_c st = .next ip2 st2 →
      st2.acc < 256) ∧
    (∀ bpf ip ip_c, 255 < bpf.k →
      (bpf.op = BPF_JMP + BPF_JEQ + BPF_K →
        bpf_dispatch opt_machine sys_data_b bpf ip ip_c st =
          .next ((ip + bpf.jf) % UINT_MOD) st) ∧
      (bpf.op = BPF_JMP + BPF_JGT + BPF_K →
        bpf_dispatch opt_machine sys_data_b bpf ip ip_c st =
          .next ((ip + bpf.jt) % UINT_MOD) st) ∧
      (bpf.op = BPF_JMP + BPF_JGE + BPF_K →
        bpf_dispatch opt_machine sys_data_b bpf ip ip_c st =
          .next ((ip + bpf.jt) % UINT_MOD) st)) := by
  refine ⟨rfl, ?_, ?_⟩
  · intro bpf ip ip_c ip2 st2 h
    unfold bpf_dispatch at h
    by_cases c1 : bpf.op = BPF_LD + BPF_W + BPF_ABS
    · rw [if_pos c1] at h
      split_ifs at h <;> cases h <;> exact hmem bpf.k
    rw [if_neg c1] at h
    by_cases c2 : bpf.op = BPF_JMP + BPF_JA
    · rw [if_pos c2] at h
      cases h
      exact hacc
    rw [if_neg c2] at h
    by_cases c3 : bpf.op = BPF_JMP + BPF_JEQ + BPF_K
    · rw [if_pos c3] at h
      split_ifs at h <;> cases h <;> exact hacc
    rw [if_neg c3] at h
    by_cases c4 : bpf.op = BPF_JMP + BPF_JGT + BPF_K
    · rw [if_pos c4] at h
      split_ifs at h <;> cases h <;> exact hacc
    rw [if_neg c4] at h
    by_cases c5 : bpf.op = BPF_JMP + BPF_JGE + BPF_K
    · rw [if_pos c5] at h
      split_ifs at h <;> cases h <;> exact hacc
    rw [if_neg c5] at h
    by_cases c6 : bpf.op = BPF_RET + BPF_K
    · rw [if_pos c6] at h
      cases h
    · rw [if_neg c6] at h
      cases h
  · intro bpf ip ip_c hk
    have hne : ¬ bpf.k = st.acc := by omega
    have hgt : bpf.k > st.acc := by omega
    have hge : bpf.k ≥ st.acc := by omega
    refine ⟨?_, ?_, ?_⟩
    · intro hop
      unfold bpf_dispatch
      rw [if_neg (by rw [hop]; decide), if_neg (by rw [hop]; decide),
        if_pos hop, if_neg hne]
    · intro hop
      unfold bpf_dispatch
      rw [if_neg (by rw [hop]; decide), if_neg (by rw [hop]; decide),
        if_neg (by rw [hop]; decide), if_pos hop, if_pos hgt]
    · intro hop
      unfold bpf_dispatch
      rw [if_neg (by rw [hop]; decide), if_neg (by rw [hop]; decide),
        if_neg (by rw [hop]; decide), if_neg (by rw [hop]; decide),
        if_pos hop, if_pos hge]

/-- Witness for C9: a load of byte 3 from the all-zero record keeps the
accumulator below 256. -/
theorem C9_acc_invariant_witness :
    ({ acc := 0, temp := List.replicate BPF_SCRATCH_SIZE 0 } : sim_state).acc
      < 256 :=
  (C9_acc_invariant 32 (fun _ => 0) byteMem_zero sim_state_init
      (by decide)).2.1
    ⟨BPF_LD + BPF_W + BPF_ABS, 0, 0, 3⟩ 1 0 1
    { acc := 0, temp := List.replicate BPF_SCRATCH_SIZE 0 } (by decide)

/-- Replace the scratch memory of the state carried by a step result,
leaving a terminal result unchanged. -/
def StepResult.withTemp (t : List Nat) : StepResult → StepResult
  | .next ip st => .next ip { st with temp := t }
  | .done out => .done out

/-- Claim C10: no supported instruction reads or writes the scratch array:
the scratch memory starts all-zero, dispatch treats two states differing
only in scratch memory identically (carrying each scratch through), and
every continuing step leaves the scratch memory unchanged. -/
theorem C10_scratch_frame :
    sim_state_init.temp = List.replicate BPF_SCRATCH_SIZE 0 ∧
    (∀ opt_machine sys_data_b bpf ip ip_c a t t2,
      bpf_dispatch opt_machine sys_data_b bpf ip ip_c
          { acc := a, temp := t2 } =
        StepResult.withTemp t2
          (bpf_dispatch opt_machine sys_data_b bpf ip ip_c
            { acc := a, temp := t })) ∧
    (∀ opt_machine sys_data_b bpf ip ip_c st ip2 st2,
      bpf_dispatch opt_machine sys_data_b bpf ip ip_c st = .next ip2 st2 →
      st2.temp = st.temp) := by
  refine ⟨rfl, ?_, ?_⟩
  · intro m b bpf ip ip_c a t t2
    unfold bpf_dispatch
    dsimp only
    split_ifs <;> rfl
  · intro m b bpf ip ip_c st ip2 st2 h
    unfold bpf_dispatch at h
    by_cases c1 : bpf.op = BPF_LD + BPF_W + BPF_ABS
    · rw [if_pos c1] at h
      split_ifs at h <;> cases h <;> rfl
    rw [if_neg c1] at h
    by_cases c2 : bpf.op = BPF_JMP + BPF_JA
    · rw [if_pos c2] at h
      cases h
      rfl
    rw [if_neg c2] at h
    by_cases c3 : bpf.op = BPF_JMP + BPF_JEQ + BPF_K
    · rw [if_pos c3] at h
      split_ifs at h <;> cases h <;> rfl
    rw [if_neg c3] at h
    by_cases c4 : bpf.op = BPF_JMP + BPF_JGT + BPF_K
    · rw [if_pos c4] at h
      split_ifs at h <;> cases h <;> rfl
    rw [if_neg c4] at h
    by_cases c5 : bpf.op = BPF_JMP + BPF_JGE + BPF_K
    · rw [if_pos c5] at h
      split_ifs at h <;> cases h <;> rfl
    rw [if_neg c5] at h
    by_cases c6 : bpf.op = BPF_RET + BPF_K
    · rw [if_pos c6] at h
      cases h
    · rw [if_neg c6] at h
      cases h

/-- Witness for C10: a concrete unconditional-jump step leaves the scratch
memory of the initial state unchanged. -/
theorem C10_scratch_frame_witness :
    sim_state_init.temp = List.replicate BPF_SCRATCH_SIZE 0 ∧
    sim_state_init.temp = sim_state_init.temp :=
  ⟨C10_scratch_frame.1,
   C10_scratch_frame.2.2 32 (fun _ => 0) ⟨BPF_JMP + BPF_JA, 0, 0, 3⟩ 1 0
     sim_state_init 4 sim_state_init (by decide)⟩

end BpfSim
